import Mathlib

/-!
Verification of the DailyAI ranking / deduplication core.

Shallow embedding of the ranking and deduplication pipeline:

* `src/models/tweet.py` — the `Tweet` dataclass (machine floats and ints are
  idealized as `ℚ`; timestamps are `ℚ` seconds, with `Option` marking a value
  that `isinstance(·, datetime)` rejects);
* `src/collectors/x_collector.py` (`_convert_to_model`) — the defaulting of
  missing / `None` engagement attributes via `getattr(tweet, f, 0) or 0`;
* `src/processors/ranking.py` (`TweetRanker`) — scoring, reason-string
  construction, descending stable sort, and the auto-learning weight
  adjustment.  `math.exp(-0.01 * age_hours)` is abstracted as an explicit
  decay-function parameter `exp_decay : ℚ → ℚ` (its value is irrelevant to
  every property proved here);
* `src/processors/deduplication.py` (`TweetDeduplicator`) — the one-pass
  id-based deduplication against a batch-local seen set and an optional
  duplicate oracle (`db_manager.is_duplicate_tweet`).

The Python `dict` of weights is modelled as an insertion-ordered association
list; `dict[k] += v` on an absent key is a `KeyError`, modelled by `Option`.
The Python call `sorted(l, key=k, reverse=True)` is a stable descending sort, which
is modelled by `List.insertionSort` with the relation "key of the left
argument is at least the key of the right argument" (any stable sort by the
same key yields the same list).
-/

namespace DailyAI

/-- The `Tweet` dataclass of `src/models/tweet.py` (lines 14-31).  Fields with
a Python default keep it; `created_at : Option ℚ` is `none` exactly when the
stored value is not a `datetime` instance. -/
structure Tweet where
  id : String
  author : String
  author_fullname : String
  content : String
  created_at : Option ℚ
  url : String
  platform : String := "X"
  likes : ℚ := 0
  retweets : ℚ := 0
  replies : ℚ := 0
  quotes : ℚ := 0
  referenced_urls : List String := []
  media_urls : List String := []
  rank_score : Option ℚ := none
  rank_reason : Option String := none
deriving DecidableEq

/-- A raw scraped post as seen by `XCollector._convert_to_model`
(`src/collectors/x_collector.py`, lines 630-674): an engagement attribute is
`none` when the attribute is missing or its value is `None`. -/
structure RawTweet where
  id : String
  text : String
  created_on : Option ℚ
  likes : Option ℚ := none
  retweets : Option ℚ := none
  replies : Option ℚ := none
  quotes : Option ℚ := none
deriving DecidableEq

/-- Model of `getattr(tweet, field, 0) or 0` (x_collector.py lines 647-650): a missing
attribute and a Python-falsy value (`None`, `0`) both become `0`; genuine
counts pass through. -/
def getattrOr0 : Option ℚ → ℚ
  | none => 0
  | some v => v

/-- Core of `XCollector._convert_to_model` (x_collector.py lines 630-674):
build the internal `Tweet` model, defaulting missing/null engagement. -/
def convert_to_model (raw : RawTweet) (username fullname url : String) : Tweet :=
  { id := raw.id
    author := username
    author_fullname := fullname
    content := raw.text
    created_at := raw.created_on
    url := url
    platform := "X"
    likes := getattrOr0 raw.likes
    retweets := getattrOr0 raw.retweets
    replies := getattrOr0 raw.replies
    quotes := getattrOr0 raw.quotes
    referenced_urls := []
    media_urls := [] }

/-- The weights dict of the ranker, as an insertion-ordered association list. -/
def Weights : Type := List (String × ℚ)

instance : DecidableEq Weights := by unfold Weights; infer_instance

/-- Model of `self.weights.get(key, default)` (ranking.py). -/
def wget (w : Weights) (key : String) (default : ℚ) : ℚ :=
  match (List.find? (fun p => p.1 == key) w) with
  | some p => p.2
  | none => default

/-- Sum of values of the weights dict: `sum(self.weights.values())`. -/
def sumValues (w : Weights) : ℚ := (List.map Prod.snd w).sum

/-- Model of `self.weights[key] += d` (ranking.py lines 144-153): on an absent key a
Python `dict` raises `KeyError`, modelled by `none`. -/
def dictAdd (w : Weights) (key : String) (d : ℚ) : Option Weights :=
  if (List.map Prod.fst w).contains key then
    some (List.map (fun p => if p.1 == key then (p.1, p.2 + d) else p) w)
  else none

/-- Ranker state from `TweetRanker.__init__` (ranking.py lines 23-35). -/
structure RankerState where
  weights : Weights
  keywords : Option (List String)
  auto_learning : Bool
  learning_rate : ℚ
  min_engagement : ℚ

/-- Engagement component (ranking.py lines 79-84). -/
def engagement_score (w : Weights) (t : Tweet) : ℚ :=
  wget w "likes" 0.3 * t.likes +
  wget w "retweets" 0.4 * t.retweets +
  wget w "replies" 0.1 * t.replies +
  wget w "quotes" 0.2 * t.quotes

/-- Recency component (ranking.py lines 87-94); `exp_decay` stands for the
evaluation by the runtime of `math.exp(-0.01 * age_hours)`. -/
def recency_score (exp_decay : ℚ → ℚ) (w : Weights) (now : ℚ) (t : Tweet) : ℚ :=
  match t.created_at with
  | some c => wget w "recency" 0.5 * exp_decay ((now - c) / 3600)
  | none => 0

/-- Influence component (ranking.py lines 97-101): a flat constant. -/
def influence_score (w : Weights) : ℚ :=
  wget w "user_influence" 0.6

/-- Contribution of one keyword to the keywords component
(ranking.py lines 109-111). -/
def keyword_hit (w : Weights) (kws : List String) (content : String) (kw : String) : ℚ :=
  if (String.toLower kw).data <:+: (String.toLower content).data then
    wget w "keywords_match" 0.7 / (kws.length : ℚ)
  else 0

/-- Keywords component (ranking.py lines 104-112): for each configured
keyword whose lowercasing occurs in the lowercased content, add
`keywords_weight / len(keywords)`. -/
def keywords_score (w : Weights) (keywords : Option (List String)) (t : Tweet) : ℚ :=
  match keywords with
  | none => 0
  | some kws => (kws.map (keyword_hit w kws t.content)).sum

/-- The `score_components` dict of `_calculate_score` in insertion order
(ranking.py lines 76-112). -/
def score_components (exp_decay : ℚ → ℚ) (st : RankerState) (now : ℚ) (t : Tweet) :
    List (String × ℚ) :=
  [("engagement", engagement_score st.weights t),
   ("recency", recency_score exp_decay st.weights now t),
   ("influence", influence_score st.weights),
   ("keywords", keywords_score st.weights st.keywords t)]

/-- Decimal digits of a natural number, most significant first (fuelled). -/
def natDigitsGo : ℕ → ℕ → List Char
  | 0, _ => []
  | fuel + 1, n =>
    if n < 10 then [Nat.digitChar n]
    else natDigitsGo fuel (n / 10) ++ [Nat.digitChar (n % 10)]

/-- Decimal rendering of a natural number. -/
def natStr (n : ℕ) : String := String.mk (natDigitsGo (n + 1) n)

/-- Round to the nearest integer, ties to even (the rounding used by
fixed-point float formatting in Python). -/
def roundHalfEven (x : ℚ) : ℤ :=
  if x - ⌊x⌋ < 1 / 2 then ⌊x⌋
  else if 1 / 2 < x - ⌊x⌋ then ⌊x⌋ + 1
  else if ⌊x⌋ % 2 = 0 then ⌊x⌋ else ⌊x⌋ + 1

/-- The Python format `f"\x7bscore:.2f\x7d"`: render with exactly two decimal
places (sign, integer part, point, two digits). -/
def fmt2 (q : ℚ) : String :=
  let a := (roundHalfEven (q * 100)).natAbs
  (if q < 0 then "-" else "") ++ natStr (a / 100) ++ "." ++
    String.mk [Nat.digitChar (a / 10 % 10), Nat.digitChar (a % 10)]

/-- Is a character one of the characters stripped by `rstrip(", ")`? -/
def isCommaSpace (c : Char) : Bool := c == ',' || c == ' '

/-- Model of the Python call `s.rstrip(", ")`: remove every trailing `,` or space. -/
def rstripCS (s : String) : String :=
  String.mk (List.reverse (List.dropWhile isCommaSpace s.data.reverse))

/-- Model of `TweetRanker._calculate_score` (ranking.py lines 66-122): total score is
the sum of the four components; the reason string is the prefix plus
`f"\x7bfactor\x7d: \x7bscore:.2f\x7d, "` per component, with the trailing
`", "` stripped. -/
def calculate_score (exp_decay : ℚ → ℚ) (st : RankerState) (now : ℚ) (t : Tweet) :
    ℚ × String :=
  let comps := score_components exp_decay st now t
  let total := (comps.map Prod.snd).sum
  let reason :=
    rstripCS (comps.foldl (fun acc p => acc ++ p.1 ++ ": " ++ fmt2 p.2 ++ ", ") "排名因素: ")
  (total, reason)

/-- Writing the two derived fields (ranking.py lines 50-53):
`tweet.rank_score = score; tweet.rank_reason = reason`. -/
def assignScore (exp_decay : ℚ → ℚ) (st : RankerState) (now : ℚ) (t : Tweet) : Tweet :=
  let p := calculate_score exp_decay st now t
  { t with rank_score := some p.1, rank_reason := some p.2 }

/-- Sort key `lambda t: t.rank_score or 0` (ranking.py line 56). -/
def rankKey (t : Tweet) : ℚ := (t.rank_score).getD 0

/-- Model of `sorted(tweets, key=lambda t: t.rank_score or 0, reverse=True)`
(ranking.py line 56): the stable descending sort by `rankKey`, realized as
insertion sort (every stable sort by the same key yields the same list). -/
def sortByScoreDesc (l : List Tweet) : List Tweet :=
  List.insertionSort (fun a b => rankKey b ≤ rankKey a) l

/-- Mean of a metric over the inspected top tweets
(ranking.py lines 137-140). -/
def avgOf (f : Tweet → ℚ) (top : List Tweet) : ℚ :=
  (top.map f).sum / (top.length : ℚ)

/-- The four conditional weight increments of `_adjust_weights`
(ranking.py lines 142-153); `none` is a propagated `KeyError`. -/
def applyIncrements (w : Weights) (lr me : ℚ) (top : List Tweet) : Option Weights := do
  let w1 ← if avgOf Tweet.likes top > me then dictAdd w "likes" lr else some w
  let w2 ← if avgOf Tweet.retweets top > me then dictAdd w1 "retweets" lr else some w1
  let w3 ← if avgOf Tweet.replies top > me then dictAdd w2 "replies" lr else some w2
  if avgOf Tweet.quotes top > me then dictAdd w3 "quotes" lr else some w3

/-- The renormalization step (ranking.py lines 155-159): when the sum of all
weights is positive, divide every weight by it; otherwise leave the dict
untouched. -/
def normalizeWeights (w : Weights) : Weights :=
  if sumValues w > 0 then List.map (fun p => (p.1, p.2 / sumValues w)) w else w

/-- Model of `TweetRanker._adjust_weights` (ranking.py lines 124-161). -/
def adjust_weights (w : Weights) (lr me : ℚ) (top : List Tweet) : Option Weights :=
  if top.isEmpty then some w
  else (applyIncrements w lr me top).map normalizeWeights

/-- Model of `TweetRanker.rank` (ranking.py lines 37-64): score every tweet, sort by
descending score, and when auto-learning is on and the batch has more than 5
tweets, adjust the weights from the top 10; `none` is a propagated
`KeyError` from the adjustment. -/
def rank (exp_decay : ℚ → ℚ) (st : RankerState) (now : ℚ) (tweets : List Tweet) :
    Option (List Tweet × RankerState) :=
  let scored := tweets.map (assignScore exp_decay st now)
  let ranked := sortByScoreDesc scored
  if st.auto_learning = true ∧ 5 < tweets.length then
    (adjust_weights st.weights st.learning_rate st.min_engagement (ranked.take 10)).map
      (fun w => (ranked, { st with weights := w }))
  else some (ranked, st)

/-- Model of `db_manager and db_manager.is_duplicate_tweet(id)`
(deduplication.py line 58): `none` is an absent oracle. -/
def oracleCheck : Option (String → Bool) → String → Bool
  | some f, i => f i
  | none, _ => false

/-- The deduplication loop of `TweetDeduplicator.deduplicate`
(deduplication.py lines 50-64), with the batch-local seen set explicit. -/
def dedupGo (db : Option (String → Bool)) (seen : List String) : List Tweet → List Tweet
  | [] => []
  | t :: ts =>
    if t.id ∈ seen then dedupGo db seen ts
    else if oracleCheck db t.id then dedupGo db seen ts
    else t :: dedupGo db (t.id :: seen) ts

/-- Model of `TweetDeduplicator.deduplicate` (deduplication.py lines 32-69): empty
input short-circuits; otherwise one forward pass from a fresh seen set. -/
def deduplicate (db : Option (String → Bool)) (tweets : List Tweet) : List Tweet :=
  if tweets.isEmpty then [] else dedupGo db [] tweets

/-- Declarative reference pass for deduplication, carrying the full input
prefix already traversed: an occurrence survives iff the oracle does not flag
its id AND no element of the preceding input prefix carries the same id
(i.e. it is the first occurrence of an unflagged id).  Unlike `dedupGo`,
which tests only the ids of the *kept* items, this tests the whole prefix. -/
def firstOccurAux (flag : String → Bool) (pre : List Tweet) : List Tweet → List Tweet
  | [] => []
  | t :: ts =>
    if flag t.id = false ∧ ∀ s ∈ pre, s.id ≠ t.id
    then t :: firstOccurAux flag (pre ++ [t]) ts
    else firstOccurAux flag (pre ++ [t]) ts

/-- The first occurrence of each id the oracle does not flag, in input
order. -/
def firstOccurrences (flag : String → Bool) (ts : List Tweet) : List Tweet :=
  firstOccurAux flag [] ts

/-- Number of occurrences dropped by the reference pass: batch duplicates
(an earlier prefix element carries the same id) plus oracle-flagged ids. -/
def dropCountAux (flag : String → Bool) (pre : List Tweet) : List Tweet → ℕ
  | [] => 0
  | t :: ts =>
    (if flag t.id = false ∧ ∀ s ∈ pre, s.id ≠ t.id then 0 else 1) +
      dropCountAux flag (pre ++ [t]) ts

/-- Number of batch or oracle duplicates in the input. -/
def dropCount (flag : String → Bool) (ts : List Tweet) : ℕ :=
  dropCountAux flag [] ts

/-! Helper lemmas -/

/-- Evaluation helper for `fmt2` at a nonnegative concrete rational. -/
theorem fmt2_eval_nonneg (q : ℚ) (n : ℕ) (h : roundHalfEven (q * 100) = (n : ℤ))
    (h2 : ¬ q < 0) :
    fmt2 q = "" ++ natStr (n / 100) ++ "." ++
      String.mk [Nat.digitChar (n / 10 % 10), Nat.digitChar (n % 10)] := by
  unfold fmt2
  rw [h, if_neg h2]
  simp

/-- Sanity: zero renders as two zero decimal places. -/
theorem fmt2_zero : fmt2 0 = "0.00" := by
  rw [fmt2_eval_nonneg 0 0 (by norm_num [roundHalfEven]) (by norm_num)]
  decide

/-- Sanity: a two-decimal rational renders digit for digit. -/
theorem fmt2_sample : fmt2 (1234 / 100) = "12.34" := by
  rw [fmt2_eval_nonneg (1234 / 100) 1234 (by norm_num [roundHalfEven]) (by norm_num)]
  decide

/-! Deduplication: correspondence with the declarative reference pass -/

/-- The deduplication loop agrees with the declarative reference pass: the
seen set of `dedupGo` holds the ids of the *kept* prefix items, but every
prefix item is either oracle-flagged or has its id in the seen set, so the
two membership tests coincide. -/
theorem dedupGo_eq_firstOccurAux (db : Option (String → Bool)) (ts : List Tweet) :
    ∀ (seen : List String) (pre : List Tweet),
      (∀ i ∈ seen, ∃ s ∈ pre, s.id = i) →
      (∀ s ∈ pre, oracleCheck db s.id = true ∨ s.id ∈ seen) →
      dedupGo db seen ts = firstOccurAux (oracleCheck db) pre ts := by
  induction ts with
  | nil => intro seen pre _ _; rfl
  | cons t ts ih =>
    intro seen pre hA hB
    have hA2 : ∀ i ∈ seen, ∃ s ∈ pre ++ [t], s.id = i := by
      intro i hi
      obtain ⟨s, hs, hid⟩ := hA i hi
      exact ⟨s, List.mem_append_left _ hs, hid⟩
    by_cases hmem : t.id ∈ seen
    · obtain ⟨s, hs, hsid⟩ := hA t.id hmem
      have hcond : ¬ (oracleCheck db t.id = false ∧ ∀ u ∈ pre, u.id ≠ t.id) := by
        rintro ⟨-, hall⟩
        exact hall s hs hsid
      simp only [dedupGo, firstOccurAux]
      rw [if_pos hmem, if_neg hcond]
      refine ih seen (pre ++ [t]) hA2 ?_
      intro u hu
      rcases List.mem_append.1 hu with h | h
      · exact hB u h
      · simp only [List.mem_singleton] at h
        subst h
        exact Or.inr hmem
    · by_cases hfl : oracleCheck db t.id = true
      · have hcond : ¬ (oracleCheck db t.id = false ∧ ∀ u ∈ pre, u.id ≠ t.id) := by
          rintro ⟨hf, -⟩
          rw [hfl] at hf
          exact absurd hf (by decide)
        simp only [dedupGo, firstOccurAux]
        rw [if_neg hmem, if_pos hfl, if_neg hcond]
        refine ih seen (pre ++ [t]) hA2 ?_
        intro u hu
        rcases List.mem_append.1 hu with h | h
        · exact hB u h
        · simp only [List.mem_singleton] at h
          subst h
          exact Or.inl hfl
      · have hfl2 : oracleCheck db t.id = false := by
          cases hx : oracleCheck db t.id
          · rfl
          · exact absurd hx hfl
        have hcond : oracleCheck db t.id = false ∧ ∀ u ∈ pre, u.id ≠ t.id := by
          refine ⟨hfl2, fun u hu hne => ?_⟩
          rcases hB u hu with h | h
          · rw [hne, hfl2] at h
            exact absurd h (by decide)
          · rw [hne] at h
            exact hmem h
        simp only [dedupGo, firstOccurAux]
        rw [if_neg hmem, if_neg hfl, if_pos hcond]
        congr 1
        refine ih (t.id :: seen) (pre ++ [t]) ?_ ?_
        · intro i hi
          rcases List.mem_cons.1 hi with h | h
          · exact ⟨t, List.mem_append_right _ (List.mem_singleton.2 rfl), h.symm⟩
          · obtain ⟨s, hs, hid⟩ := hA i h
            exact ⟨s, List.mem_append_left _ hs, hid⟩
        · intro u hu
          rcases List.mem_append.1 hu with h | h
          · rcases hB u h with h2 | h2
            · exact Or.inl h2
            · exact Or.inr (List.mem_cons_of_mem _ h2)
          · simp only [List.mem_singleton] at h
            subst h
            exact Or.inr (List.mem_cons_self _ _)

/-- The deduplication loop output is a subsequence of its input. -/
theorem dedupGo_sublist (db : Option (String → Bool)) (ts : List Tweet) :
    ∀ seen, List.Sublist (dedupGo db seen ts) ts := by
  induction ts with
  | nil => intro seen; simp [dedupGo]
  | cons t ts ih =>
    intro seen
    by_cases hmem : t.id ∈ seen
    · simp only [dedupGo]
      rw [if_pos hmem]
      exact (ih seen).cons t
    · by_cases hfl : oracleCheck db t.id = true
      · simp only [dedupGo]
        rw [if_neg hmem, if_pos hfl]
        exact (ih seen).cons t
      · simp only [dedupGo]
        rw [if_neg hmem, if_neg hfl]
        exact (ih (t.id :: seen)).cons₂ t

/-- Survivors plus dropped occurrences account for the whole input. -/
theorem firstOccurAux_length (flag : String → Bool) (ts : List Tweet) :
    ∀ pre, (firstOccurAux flag pre ts).length + dropCountAux flag pre ts = ts.length := by
  induction ts with
  | nil => intro pre; rfl
  | cons t ts ih =>
    intro pre
    have h := ih (pre ++ [t])
    simp only [firstOccurAux, dropCountAux, List.length_cons]
    split
    · simp only [List.length_cons]
      omega
    · omega

/-- Everything kept by the loop is unflagged and has an id outside the
carried seen set. -/
theorem dedupGo_mem_flag (db : Option (String → Bool)) (ts : List Tweet) :
    ∀ seen, ∀ x ∈ dedupGo db seen ts, oracleCheck db x.id = false ∧ x.id ∉ seen := by
  induction ts with
  | nil => intro seen x hx; simp [dedupGo] at hx
  | cons t ts ih =>
    intro seen x hx
    by_cases hmem : t.id ∈ seen
    · simp only [dedupGo] at hx
      rw [if_pos hmem] at hx
      exact ih seen x hx
    · by_cases hfl : oracleCheck db t.id = true
      · simp only [dedupGo] at hx
        rw [if_neg hmem, if_pos hfl] at hx
        exact ih seen x hx
      · simp only [dedupGo] at hx
        rw [if_neg hmem, if_neg hfl] at hx
        rcases List.mem_cons.1 hx with h | h
        · subst h
          refine ⟨?_, hmem⟩
          cases hx2 : oracleCheck db x.id
          · rfl
          · exact absurd hx2 hfl
        · have h2 := ih (t.id :: seen) x h
          exact ⟨h2.1, fun hc => h2.2 (List.mem_cons_of_mem _ hc)⟩

/-- The ids of the loop output are pairwise distinct. -/
theorem dedupGo_ids_nodup (db : Option (String → Bool)) (ts : List Tweet) :
    ∀ seen, ((dedupGo db seen ts).map Tweet.id).Nodup := by
  induction ts with
  | nil => intro seen; simp [dedupGo]
  | cons t ts ih =>
    intro seen
    by_cases hmem : t.id ∈ seen
    · simp only [dedupGo]
      rw [if_pos hmem]
      exact ih seen
    · by_cases hfl : oracleCheck db t.id = true
      · simp only [dedupGo]
        rw [if_neg hmem, if_pos hfl]
        exact ih seen
      · simp only [dedupGo]
        rw [if_neg hmem, if_neg hfl]
        simp only [List.map_cons, List.nodup_cons]
        refine ⟨?_, ih (t.id :: seen)⟩
        intro hc
        obtain ⟨x, hx, hxid⟩ := List.mem_map.1 hc
        have h2 := dedupGo_mem_flag db ts (t.id :: seen) x hx
        exact h2.2 (by rw [hxid]; exact List.mem_cons_self _ _)

/-- The loop leaves a list untouched when nothing in it is flagged, ids are
pairwise distinct, and nothing is already in the seen set. -/
theorem dedupGo_of_nodup (db : Option (String → Bool)) (ts : List Tweet) :
    ∀ seen,
      (∀ x ∈ ts, oracleCheck db x.id = false) →
      ((ts.map Tweet.id).Nodup) →
      (∀ x ∈ ts, x.id ∉ seen) →
      dedupGo db seen ts = ts := by
  induction ts with
  | nil => intro seen _ _ _; rfl
  | cons t ts ih =>
    intro seen hfl hnd hseen
    have hmem : t.id ∉ seen := hseen t (List.mem_cons_self _ _)
    have hfl2 : ¬ (oracleCheck db t.id = true) := by
      rw [hfl t (List.mem_cons_self _ _)]
      decide
    simp only [dedupGo]
    rw [if_neg hmem, if_neg hfl2]
    congr 1
    simp only [List.map_cons, List.nodup_cons] at hnd
    refine ih (t.id :: seen) (fun x hx => hfl x (List.mem_cons_of_mem _ hx)) hnd.2 ?_
    intro x hx
    simp only [List.mem_cons, not_or]
    refine ⟨fun hc => hnd.1 ?_, hseen x (List.mem_cons_of_mem _ hx)⟩
    rw [← hc]
    exact List.mem_map_of_mem Tweet.id hx

/-- C3: for every input sequence and every duplicate oracle, `deduplicate`
returns the subsequence consisting of exactly the first occurrence of each id
the oracle does not report as duplicate (`firstOccurrences`), in input order
(it is a sublist of the input), and the output length is the input length
minus the number of occurrences dropped as batch or oracle duplicates. -/
theorem deduplicate_eq_firstOccurrences (f : String → Bool) (ts : List Tweet) :
    deduplicate (some f) ts = firstOccurrences f ts ∧
    List.Sublist (deduplicate (some f) ts) ts ∧
    (deduplicate (some f) ts).length = ts.length - dropCount f ts := by
  have h1 : deduplicate (some f) ts = firstOccurrences f ts := by
    cases ts with
    | nil => rfl
    | cons t ts =>
      show dedupGo (some f) [] (t :: ts) = firstOccurAux f [] (t :: ts)
      exact dedupGo_eq_firstOccurAux (some f) (t :: ts) [] [] (by simp) (by simp)
  refine ⟨h1, ?_, ?_⟩
  · cases ts with
    | nil => simp [deduplicate]
    | cons t ts => exact dedupGo_sublist (some f) (t :: ts) []
  · rw [h1]
    have h2 := firstOccurAux_length f ts []
    show (firstOccurAux f [] ts).length = ts.length - dropCountAux f [] ts
    omega

/-- C4: deduplication is idempotent — for every (pure) duplicate oracle,
present or absent, deduplicating an already-deduplicated sequence returns it
unchanged. -/
theorem deduplicate_idempotent (db : Option (String → Bool)) (ts : List Tweet) :
    deduplicate db (deduplicate db ts) = deduplicate db ts := by
  by_cases h : ts.isEmpty = true
  · simp [deduplicate, h]
  · have hout : deduplicate db ts = dedupGo db [] ts := by
      simp [deduplicate, h]
    rw [hout]
    by_cases h2 : (dedupGo db [] ts).isEmpty = true
    · rw [List.isEmpty_iff] at h2
      rw [h2]
      rfl
    · show deduplicate db (dedupGo db [] ts) = dedupGo db [] ts
      rw [deduplicate, if_neg h2]
      exact dedupGo_of_nodup db (dedupGo db [] ts) []
        (fun x hx => (dedupGo_mem_flag db ts [] x hx).1)
        (dedupGo_ids_nodup db ts [])
        (fun x _ => List.not_mem_nil x.id)

/-- C5: with no duplicate oracle configured (`db_manager` absent),
`deduplicate` removes only batch-local duplicates: the output is exactly the
first occurrence of each id in input order, and the pass is total (no
runtime error is modelled or needed). -/
theorem deduplicate_without_oracle (ts : List Tweet) :
    deduplicate none ts = firstOccurrences (fun _ => false) ts ∧
    List.Sublist (deduplicate none ts) ts := by
  have h1 : deduplicate none ts = firstOccurrences (fun _ => false) ts := by
    cases ts with
    | nil => rfl
    | cons t ts =>
      show dedupGo none [] (t :: ts) = firstOccurAux (fun _ => false) [] (t :: ts)
      exact dedupGo_eq_firstOccurAux none (t :: ts) [] [] (by simp) (by simp)
  refine ⟨h1, ?_⟩
  cases ts with
  | nil => simp [deduplicate]
  | cons t ts => exact dedupGo_sublist none (t :: ts) []

/-! Auto-learning weight adjustment -/

/-- Dividing every value of an association list by `c` divides its value sum
by `c`. -/
theorem sum_snd_map_div (w : List (String × ℚ)) (c : ℚ) :
    ((List.map (fun p => (p.1, p.2 / c)) w).map Prod.snd).sum =
      ((w.map Prod.snd).sum) / c := by
  induction w with
  | nil => simp
  | cons x xs ih =>
    simp only [List.map_cons, List.sum_cons]
    rw [ih, add_div]

/-- C6: after an auto-learning pass whose post-increment weight sum is
positive, `_adjust_weights` divides every weight in the mapping — the
incremented ones and the untouched ones alike — by that sum, and the
resulting weights sum to exactly 1. -/
theorem adjust_weights_renormalizes (w : Weights) (lr me : ℚ) (top : List Tweet)
    (wInc : Weights) (htop : top ≠ [])
    (hinc : applyIncrements w lr me top = some wInc)
    (hsum : 0 < sumValues wInc) :
    adjust_weights w lr me top =
      some (List.map (fun p => (p.1, p.2 / sumValues wInc)) wInc) ∧
    sumValues (List.map (fun p => (p.1, p.2 / sumValues wInc)) wInc) = 1 := by
  have hne : top.isEmpty = false := by
    cases top with
    | nil => exact absurd rfl htop
    | cons a l => rfl
  have hnorm : normalizeWeights wInc = List.map (fun p => (p.1, p.2 / sumValues wInc)) wInc := by
    unfold normalizeWeights
    rw [if_pos hsum]
  constructor
  · unfold adjust_weights
    rw [if_neg (by simp [hne]), hinc, Option.map_some', hnorm]
  · show ((List.map (fun p => (p.1, p.2 / sumValues wInc)) wInc).map Prod.snd).sum = 1
    rw [sum_snd_map_div]
    exact div_self (ne_of_gt hsum)

/-- Witness for C6: a two-key weight dict, no increment fires, the sum is 1,
and the pass renormalizes to a dict summing to exactly 1. -/
theorem adjust_weights_renormalizes_witness :
    adjust_weights [("likes", 1/2), ("recency", 1/2)] (1/100) 10
        [{ id := "w6", author := "a", author_fullname := "a", content := "",
           created_at := none, url := "" }] =
      some (List.map
        (fun p => (p.1, p.2 / sumValues [("likes", (1:ℚ)/2), ("recency", 1/2)]))
        [("likes", 1/2), ("recency", 1/2)]) ∧
    sumValues (List.map
        (fun p => (p.1, p.2 / sumValues [("likes", (1:ℚ)/2), ("recency", 1/2)]))
        [("likes", 1/2), ("recency", 1/2)]) = 1 :=
  adjust_weights_renormalizes [("likes", 1/2), ("recency", 1/2)] (1/100) 10 _ _
    (by simp)
    (by norm_num [applyIncrements, avgOf])
    (by norm_num [sumValues])

/-- C7: when the post-increment weight sum is zero, the renormalization step
is skipped: the weights stay exactly as incremented and no division is
performed (the guard `total > 0` fails). -/
theorem adjust_weights_zero_sum_skips (w : Weights) (lr me : ℚ) (top : List Tweet)
    (wInc : Weights) (htop : top ≠ [])
    (hinc : applyIncrements w lr me top = some wInc)
    (hz : sumValues wInc = 0) :
    adjust_weights w lr me top = some wInc := by
  have hne : top.isEmpty = false := by
    cases top with
    | nil => exact absurd rfl htop
    | cons a l => rfl
  unfold adjust_weights
  rw [if_neg (by simp [hne]), hinc, Option.map_some']
  unfold normalizeWeights
  rw [hz, if_neg (by norm_num)]

/-- Witness for C7: an all-zero weight dict passes through unchanged. -/
theorem adjust_weights_zero_sum_skips_witness :
    adjust_weights [("likes", 0)] (1/100) 10
        [{ id := "w7", author := "a", author_fullname := "a", content := "",
           created_at := none, url := "" }] =
      some [("likes", 0)] :=
  adjust_weights_zero_sum_skips [("likes", 0)] (1/100) 10 _ _
    (by simp)
    (by norm_num [applyIncrements, avgOf])
    (by norm_num [sumValues])

/-! Score monotonicity -/

/-- The total score decomposed into its four components. -/
theorem calculate_score_fst (ed : ℚ → ℚ) (st : RankerState) (now : ℚ) (u : Tweet) :
    (calculate_score ed st now u).1 =
      wget st.weights "likes" 0.3 * u.likes +
      wget st.weights "retweets" 0.4 * u.retweets +
      wget st.weights "replies" 0.1 * u.replies +
      wget st.weights "quotes" 0.2 * u.quotes +
      recency_score ed st.weights now u +
      influence_score st.weights +
      keywords_score st.weights st.keywords u := by
  simp [calculate_score, score_components, engagement_score]
  ring

/-- C8: for two items identical except in one engagement metric, a positive
weight for that metric makes the item with the strictly larger metric score
strictly higher (same evaluation instant, same configuration). -/
theorem calculate_score_engagement_strict_mono (ed : ℚ → ℚ) (st : RankerState)
    (now : ℚ) (t : Tweet) (v : ℚ) :
    (0 < wget st.weights "likes" 0.3 → t.likes < v →
      (calculate_score ed st now t).1 <
        (calculate_score ed st now { t with likes := v }).1) ∧
    (0 < wget st.weights "retweets" 0.4 → t.retweets < v →
      (calculate_score ed st now t).1 <
        (calculate_score ed st now { t with retweets := v }).1) ∧
    (0 < wget st.weights "replies" 0.1 → t.replies < v →
      (calculate_score ed st now t).1 <
        (calculate_score ed st now { t with replies := v }).1) ∧
    (0 < wget st.weights "quotes" 0.2 → t.quotes < v →
      (calculate_score ed st now t).1 <
        (calculate_score ed st now { t with quotes := v }).1) := by
  refine ⟨fun hw hv => ?_, fun hw hv => ?_, fun hw hv => ?_, fun hw hv => ?_⟩
  · rw [calculate_score_fst, calculate_score_fst]
    have hmul := mul_lt_mul_of_pos_left hv hw
    have e1 : ({ t with likes := v } : Tweet).likes = v := rfl
    have e2 : ({ t with likes := v } : Tweet).retweets = t.retweets := rfl
    have e3 : ({ t with likes := v } : Tweet).replies = t.replies := rfl
    have e4 : ({ t with likes := v } : Tweet).quotes = t.quotes := rfl
    have e5 : recency_score ed st.weights now { t with likes := v } =
        recency_score ed st.weights now t := rfl
    have e6 : keywords_score st.weights st.keywords { t with likes := v } =
        keywords_score st.weights st.keywords t := rfl
    rw [e1, e2, e3, e4, e5, e6]
    linarith
  · rw [calculate_score_fst, calculate_score_fst]
    have hmul := mul_lt_mul_of_pos_left hv hw
    have e1 : ({ t with retweets := v } : Tweet).likes = t.likes := rfl
    have e2 : ({ t with retweets := v } : Tweet).retweets = v := rfl
    have e3 : ({ t with retweets := v } : Tweet).replies = t.replies := rfl
    have e4 : ({ t with retweets := v } : Tweet).quotes = t.quotes := rfl
    have e5 : recency_score ed st.weights now { t with retweets := v } =
        recency_score ed st.weights now t := rfl
    have e6 : keywords_score st.weights st.keywords { t with retweets := v } =
        keywords_score st.weights st.keywords t := rfl
    rw [e1, e2, e3, e4, e5, e6]
    linarith
  · rw [calculate_score_fst, calculate_score_fst]
    have hmul := mul_lt_mul_of_pos_left hv hw
    have e1 : ({ t with replies := v } : Tweet).likes = t.likes := rfl
    have e2 : ({ t with replies := v } : Tweet).retweets = t.retweets := rfl
    have e3 : ({ t with replies := v } : Tweet).replies = v := rfl
    have e4 : ({ t with replies := v } : Tweet).quotes = t.quotes := rfl
    have e5 : recency_score ed st.weights now { t with replies := v } =
        recency_score ed st.weights now t := rfl
    have e6 : keywords_score st.weights st.keywords { t with replies := v } =
        keywords_score st.weights st.keywords t := rfl
    rw [e1, e2, e3, e4, e5, e6]
    linarith
  · rw [calculate_score_fst, calculate_score_fst]
    have hmul := mul_lt_mul_of_pos_left hv hw
    have e1 : ({ t with quotes := v } : Tweet).likes = t.likes := rfl
    have e2 : ({ t with quotes := v } : Tweet).retweets = t.retweets := rfl
    have e3 : ({ t with quotes := v } : Tweet).replies = t.replies := rfl
    have e4 : ({ t with quotes := v } : Tweet).quotes = v := rfl
    have e5 : recency_score ed st.weights now { t with quotes := v } =
        recency_score ed st.weights now t := rfl
    have e6 : keywords_score st.weights st.keywords { t with quotes := v } =
        keywords_score st.weights st.keywords t := rfl
    rw [e1, e2, e3, e4, e5, e6]
    linarith

/-- Witness for C8: with default weights (all four engagement weights
positive), raising any single engagement count from 1 to 2 strictly raises
the total score. -/
theorem calculate_score_engagement_strict_mono_witness :
    ((calculate_score (fun _ => 1)
        { weights := [], keywords := none, auto_learning := false,
          learning_rate := 1/100, min_engagement := 10 } 0
        { id := "w8", author := "a", author_fullname := "a", content := "",
          created_at := none, url := "", likes := 1, retweets := 1,
          replies := 1, quotes := 1 }).1 <
      (calculate_score (fun _ => 1)
        { weights := [], keywords := none, auto_learning := false,
          learning_rate := 1/100, min_engagement := 10 } 0
        { ({ id := "w8", author := "a", author_fullname := "a", content := "",
             created_at := none, url := "", likes := 1, retweets := 1,
             replies := 1, quotes := 1 } : Tweet) with likes := 2 }).1) ∧
    ((calculate_score (fun _ => 1)
        { weights := [], keywords := none, auto_learning := false,
          learning_rate := 1/100, min_engagement := 10 } 0
        { id := "w8", author := "a", author_fullname := "a", content := "",
          created_at := none, url := "", likes := 1, retweets := 1,
          replies := 1, quotes := 1 }).1 <
      (calculate_score (fun _ => 1)
        { weights := [], keywords := none, auto_learning := false,
          learning_rate := 1/100, min_engagement := 10 } 0
        { ({ id := "w8", author := "a", author_fullname := "a", content := "",
             created_at := none, url := "", likes := 1, retweets := 1,
             replies := 1, quotes := 1 } : Tweet) with retweets := 2 }).1) ∧
    ((calculate_score (fun _ => 1)
        { weights := [], keywords := none, auto_learning := false,
          learning_rate := 1/100, min_engagement := 10 } 0
        { id := "w8", author := "a", author_fullname := "a", content := "",
          created_at := none, url := "", likes := 1, retweets := 1,
          replies := 1, quotes := 1 }).1 <
      (calculate_score (fun _ => 1)
        { weights := [], keywords := none, auto_learning := false,
          learning_rate := 1/100, min_engagement := 10 } 0
        { ({ id := "w8", author := "a", author_fullname := "a", content := "",
             created_at := none, url := "", likes := 1, retweets := 1,
             replies := 1, quotes := 1 } : Tweet) with replies := 2 }).1) ∧
    ((calculate_score (fun _ => 1)
        { weights := [], keywords := none, auto_learning := false,
          learning_rate := 1/100, min_engagement := 10 } 0
        { id := "w8", author := "a", author_fullname := "a", content := "",
          created_at := none, url := "", likes := 1, retweets := 1,
          replies := 1, quotes := 1 }).1 <
      (calculate_score (fun _ => 1)
        { weights := [], keywords := none, auto_learning := false,
          learning_rate := 1/100, min_engagement := 10 } 0
        { ({ id := "w8", author := "a", author_fullname := "a", content := "",
             created_at := none, url := "", likes := 1, retweets := 1,
             replies := 1, quotes := 1 } : Tweet) with quotes := 2 }).1) :=
  ⟨(calculate_score_engagement_strict_mono _ _ _ _ 2).1
      (by norm_num [wget, List.find?]) (by norm_num),
   (calculate_score_engagement_strict_mono _ _ _ _ 2).2.1
      (by norm_num [wget, List.find?]) (by norm_num),
   (calculate_score_engagement_strict_mono _ _ _ _ 2).2.2.1
      (by norm_num [wget, List.find?]) (by norm_num),
   (calculate_score_engagement_strict_mono _ _ _ _ 2).2.2.2
      (by norm_num [wget, List.find?]) (by norm_num)⟩

/-! Sorting: permutation, descending order, stability -/

/-- The sort step returns a permutation of its input. -/
theorem sortByScoreDesc_perm (l : List Tweet) : List.Perm (sortByScoreDesc l) l :=
  List.perm_insertionSort _ l

/-- The sort step orders by descending key. -/
theorem sortByScoreDesc_sorted (l : List Tweet) :
    List.Pairwise (fun a b => rankKey b ≤ rankKey a) (sortByScoreDesc l) := by
  haveI h1 : IsTotal Tweet (fun a b => rankKey b ≤ rankKey a) :=
    ⟨fun a b => le_total (rankKey b) (rankKey a)⟩
  haveI h2 : IsTrans Tweet (fun a b => rankKey b ≤ rankKey a) :=
    ⟨fun a b c hab hbc => le_trans hbc hab⟩
  exact List.sorted_insertionSort _ l

/-- Filtering one key class through an ordered insertion: the inserted
element lands in front of its own key class and leaves the others alone. -/
theorem filter_orderedInsert (x : Tweet) (q : ℚ) (l : List Tweet) :
    List.filter (fun t => rankKey t == q)
        (List.orderedInsert (fun a b => rankKey b ≤ rankKey a) x l) =
      if rankKey x == q
      then x :: List.filter (fun t => rankKey t == q) l
      else List.filter (fun t => rankKey t == q) l := by
  induction l with
  | nil =>
    simp only [List.orderedInsert, List.filter]
    split
    · next hx => rw [if_pos hx]
    · next hx => rw [if_neg (by simp [hx])]
  | cons b l ih =>
    simp only [List.orderedInsert]
    by_cases hr : rankKey b ≤ rankKey x
    · rw [if_pos hr, List.filter_cons, List.filter_cons]
    · rw [if_neg hr, List.filter_cons, ih]
      by_cases hx : (rankKey x == q) = true
      · have hbq : (rankKey b == q) = false := by
          rcases hb : (rankKey b == q) with _ | _
          · rfl
          · exfalso
            have h1 : rankKey b = q := by simpa using hb
            have h2 : rankKey x = q := by simpa using hx
            exact hr (le_of_eq (h1.trans h2.symm))
        simp [hx, hbq, List.filter_cons]
      · have hx2 : (rankKey x == q) = false := by
          rcases hb : (rankKey x == q) with _ | _
          · rfl
          · exact absurd hb hx
        simp [hx2, List.filter_cons]

/-- Stability of the sort step: each key class is preserved verbatim, in
input order. -/
theorem sortByScoreDesc_stable (q : ℚ) (l : List Tweet) :
    List.filter (fun t => rankKey t == q) (sortByScoreDesc l) =
      List.filter (fun t => rankKey t == q) l := by
  unfold sortByScoreDesc
  induction l with
  | nil => rfl
  | cons x l ih =>
    simp only [List.insertionSort]
    rw [filter_orderedInsert, ih, List.filter_cons]

/-- The list a successful `rank` call returns is exactly the stable
descending sort of the scored input. -/
theorem rank_out_eq (ed : ℚ → ℚ) (st : RankerState) (now : ℚ)
    (ts out : List Tweet) (st2 : RankerState)
    (h : rank ed st now ts = some (out, st2)) :
    out = sortByScoreDesc (ts.map (assignScore ed st now)) := by
  simp only [rank] at h
  split at h
  · obtain ⟨w, hw, heq⟩ := Option.map_eq_some'.1 h
    exact (congrArg Prod.fst heq).symm
  · have heq := Option.some.inj h
    exact (congrArg Prod.fst heq).symm

/-- C9: `rank` sorts by descending `rank_score` (an unset score counts as
0 via the key `rank_score or 0`), the sort is a permutation, and it is
stable — every equal-key class appears in the output verbatim in input
order; the list returned by a successful `rank` call is exactly this stable
descending sort of the scored tweets. -/
theorem rank_sorts_desc_stable :
    (∀ l : List Tweet,
      List.Perm (sortByScoreDesc l) l ∧
      List.Pairwise (fun a b => rankKey b ≤ rankKey a) (sortByScoreDesc l) ∧
      ∀ q : ℚ,
        List.filter (fun t => rankKey t == q) (sortByScoreDesc l) =
          List.filter (fun t => rankKey t == q) l) ∧
    (∀ t : Tweet, t.rank_score = none → rankKey t = 0) ∧
    (∀ t : Tweet, ∀ s : ℚ, t.rank_score = some s → rankKey t = s) ∧
    ∀ (ed : ℚ → ℚ) (st : RankerState) (now : ℚ) (ts out : List Tweet)
      (st2 : RankerState),
      rank ed st now ts = some (out, st2) →
      out = sortByScoreDesc (ts.map (assignScore ed st now)) := by
  refine ⟨fun l => ⟨sortByScoreDesc_perm l, sortByScoreDesc_sorted l,
    fun q => sortByScoreDesc_stable q l⟩, ?_, ?_, rank_out_eq⟩
  · intro t h
    simp [rankKey, h]
  · intro t s h
    simp [rankKey, h]

/-- Witness for C9: a concrete two-tweet batch with auto-learning off; the
sort is a permutation and the returned list is the stable descending sort of
the scored batch. -/
theorem rank_sorts_desc_stable_witness :
    List.Perm
      (sortByScoreDesc
        [{ id := "a", author := "a", author_fullname := "a", content := "",
           created_at := none, url := "", rank_score := some 1 },
         { id := "b", author := "b", author_fullname := "b", content := "",
           created_at := none, url := "", rank_score := some 2 }])
      [{ id := "a", author := "a", author_fullname := "a", content := "",
         created_at := none, url := "", rank_score := some 1 },
       { id := "b", author := "b", author_fullname := "b", content := "",
         created_at := none, url := "", rank_score := some 2 }] ∧
    sortByScoreDesc
        (List.map
          (assignScore (fun _ => 1)
            { weights := [], keywords := none, auto_learning := false,
              learning_rate := 1/100, min_engagement := 10 } 0)
          [{ id := "a", author := "a", author_fullname := "a", content := "",
             created_at := none, url := "" },
           { id := "b", author := "b", author_fullname := "b", content := "",
             created_at := none, url := "", likes := 1 }]) =
      sortByScoreDesc
        (List.map
          (assignScore (fun _ => 1)
            { weights := [], keywords := none, auto_learning := false,
              learning_rate := 1/100, min_engagement := 10 } 0)
          [{ id := "a", author := "a", author_fullname := "a", content := "",
             created_at := none, url := "" },
           { id := "b", author := "b", author_fullname := "b", content := "",
             created_at := none, url := "", likes := 1 }]) :=
  ⟨(rank_sorts_desc_stable.1 _).1,
   rank_sorts_desc_stable.2.2.2 (fun _ => 1)
      { weights := [], keywords := none, auto_learning := false,
        learning_rate := 1/100, min_engagement := 10 } 0
      [{ id := "a", author := "a", author_fullname := "a", content := "",
         created_at := none, url := "" },
       { id := "b", author := "b", author_fullname := "b", content := "",
         created_at := none, url := "", likes := 1 }] _ _ rfl⟩

/-- C10: the list a successful `rank` call returns is a permutation of the
scored input items, and scoring writes only the two derived fields
`rank_score` and `rank_reason`, leaving all other fields unchanged. -/
theorem rank_perm_frame (ed : ℚ → ℚ) (st : RankerState) (now : ℚ)
    (ts out : List Tweet) (st2 : RankerState)
    (h : rank ed st now ts = some (out, st2)) :
    List.Perm out (ts.map (assignScore ed st now)) ∧
    ∀ u : Tweet,
      (assignScore ed st now u).id = u.id ∧
      (assignScore ed st now u).author = u.author ∧
      (assignScore ed st now u).author_fullname = u.author_fullname ∧
      (assignScore ed st now u).content = u.content ∧
      (assignScore ed st now u).created_at = u.created_at ∧
      (assignScore ed st now u).url = u.url ∧
      (assignScore ed st now u).platform = u.platform ∧
      (assignScore ed st now u).likes = u.likes ∧
      (assignScore ed st now u).retweets = u.retweets ∧
      (assignScore ed st now u).replies = u.replies ∧
      (assignScore ed st now u).quotes = u.quotes ∧
      (assignScore ed st now u).referenced_urls = u.referenced_urls ∧
      (assignScore ed st now u).media_urls = u.media_urls ∧
      (assignScore ed st now u).rank_score = some ((calculate_score ed st now u).1) ∧
      (assignScore ed st now u).rank_reason = some ((calculate_score ed st now u).2) := by
  constructor
  · rw [rank_out_eq ed st now ts out st2 h]
    exact sortByScoreDesc_perm _
  · intro u
    exact ⟨rfl, rfl, rfl, rfl, rfl, rfl, rfl, rfl, rfl, rfl, rfl, rfl, rfl, rfl, rfl⟩

/-- Witness for C10: a successful concrete `rank` call whose output is a
permutation of the scored input, with the id field untouched. -/
theorem rank_perm_frame_witness :
    List.Perm
      (sortByScoreDesc
        (List.map
          (assignScore (fun _ => 1)
            { weights := [], keywords := none, auto_learning := false,
              learning_rate := 1/100, min_engagement := 10 } 0)
          [{ id := "a", author := "a", author_fullname := "a", content := "",
             created_at := none, url := "" },
           { id := "b", author := "b", author_fullname := "b", content := "",
             created_at := none, url := "", likes := 1 }]))
      (List.map
        (assignScore (fun _ => 1)
          { weights := [], keywords := none, auto_learning := false,
            learning_rate := 1/100, min_engagement := 10 } 0)
        [{ id := "a", author := "a", author_fullname := "a", content := "",
           created_at := none, url := "" },
         { id := "b", author := "b", author_fullname := "b", content := "",
           created_at := none, url := "", likes := 1 }]) ∧
    (assignScore (fun _ => 1)
        { weights := [], keywords := none, auto_learning := false,
          learning_rate := 1/100, min_engagement := 10 } 0
        { id := "a", author := "a", author_fullname := "a", content := "",
          created_at := none, url := "" }).id =
      ({ id := "a", author := "a", author_fullname := "a", content := "",
         created_at := none, url := "" } : Tweet).id :=
  ⟨(rank_perm_frame (fun _ => 1)
      { weights := [], keywords := none, auto_learning := false,
        learning_rate := 1/100, min_engagement := 10 } 0
      [{ id := "a", author := "a", author_fullname := "a", content := "",
         created_at := none, url := "" },
       { id := "b", author := "b", author_fullname := "b", content := "",
         created_at := none, url := "", likes := 1 }] _ _ rfl).1,
   ((rank_perm_frame (fun _ => 1)
      { weights := [], keywords := none, auto_learning := false,
        learning_rate := 1/100, min_engagement := 10 } 0
      [{ id := "a", author := "a", author_fullname := "a", content := "",
         created_at := none, url := "" },
       { id := "b", author := "b", author_fullname := "b", content := "",
         created_at := none, url := "", likes := 1 }] _ _ rfl).2
      { id := "a", author := "a", author_fullname := "a", content := "",
        created_at := none, url := "" }).1⟩

/-! The reason string -/

/-- Digit characters are neither comma nor space. -/
theorem digitChar_not_comma_space (m : ℕ) (h : m < 10) :
    isCommaSpace (Nat.digitChar m) = false := by
  interval_cases m <;> decide

/-- Every character produced by `natDigitsGo` is a decimal digit char. -/
theorem natDigitsGo_digits (fuel : ℕ) :
    ∀ n, ∀ c ∈ natDigitsGo fuel n, ∃ m, m < 10 ∧ c = Nat.digitChar m := by
  induction fuel with
  | zero =>
    intro n c hc
    simp [natDigitsGo] at hc
  | succ fuel ih =>
    intro n c hc
    simp only [natDigitsGo] at hc
    split at hc
    · next h =>
      simp only [List.mem_singleton] at hc
      exact ⟨n, h, hc⟩
    · next h =>
      rcases List.mem_append.1 hc with h2 | h2
      · exact ih (n / 10) c h2
      · simp only [List.mem_singleton] at h2
        exact ⟨n % 10, Nat.mod_lt _ (by norm_num), h2⟩

/-- No character of `fmt2 q` is a comma or a space. -/
theorem fmt2_chars (q : ℚ) : ∀ c ∈ (fmt2 q).data, isCommaSpace c = false := by
  intro c hc
  simp only [fmt2] at hc
  rw [String.data_append, String.data_append, String.data_append] at hc
  rcases List.mem_append.1 hc with hc1 | hc1
  · rcases List.mem_append.1 hc1 with hc2 | hc2
    · rcases List.mem_append.1 hc2 with hc3 | hc3
      · by_cases hneg : q < 0
        · rw [if_pos hneg] at hc3
          simp only [show ("-" : String).data = ['-'] from rfl, List.mem_singleton] at hc3
          rw [hc3]
          decide
        · rw [if_neg hneg] at hc3
          simp only [show ("" : String).data = [] from rfl] at hc3
          exact absurd hc3 (List.not_mem_nil c)
      · obtain ⟨m, hm, hcm⟩ := natDigitsGo_digits _ _ c hc3
        rw [hcm]
        exact digitChar_not_comma_space m hm
    · simp only [show ("." : String).data = ['.'] from rfl, List.mem_singleton] at hc2
      rw [hc2]
      decide
  · rcases List.mem_cons.1 hc1 with h2 | h2
    · rw [h2]
      exact digitChar_not_comma_space _ (Nat.mod_lt _ (by norm_num))
    · rcases List.mem_cons.1 h2 with h3 | h3
      · rw [h3]
        exact digitChar_not_comma_space _ (Nat.mod_lt _ (by norm_num))
      · exact absurd h3 (List.not_mem_nil c)

/-- The string `fmt2 q` renders at least one character and ends in a digit char. -/
theorem fmt2_data_last (q : ℚ) :
    ∃ Y c, (fmt2 q).data = Y ++ [c] ∧ isCommaSpace c = false := by
  refine ⟨((if q < 0 then "-" else "") ++ natStr ((roundHalfEven (q * 100)).natAbs / 100)
      ++ ".").data ++ [Nat.digitChar ((roundHalfEven (q * 100)).natAbs / 10 % 10)],
    Nat.digitChar ((roundHalfEven (q * 100)).natAbs % 10), ?_, ?_⟩
  · show (fmt2 q).data = _
    simp only [fmt2]
    rw [String.data_append]
    simp [List.append_assoc]
  · exact digitChar_not_comma_space _ (Nat.mod_lt _ (by norm_num))

/-- The model of `rstrip(", ")` removes exactly the final `", "` when what precedes it
ends in a character that is neither comma nor space. -/
theorem rstripCS_append_str (B s : String)
    (hlast : ∃ Y c, s.data = Y ++ [c] ∧ isCommaSpace c = false) :
    rstripCS (B ++ s ++ ", ") = B ++ s := by
  obtain ⟨Y, c, hY, hc⟩ := hlast
  unfold rstripCS
  have h1 : (B ++ s ++ ", ").data = (B.data ++ s.data) ++ [',', ' '] := by
    rw [String.data_append, String.data_append]
  rw [h1, List.reverse_append]
  have h2 : List.reverse [',', ' '] = [' ', ','] := rfl
  rw [h2]
  have h4 : List.dropWhile isCommaSpace
      ([' ', ','] ++ (B.data ++ s.data).reverse) =
      List.dropWhile isCommaSpace ((B.data ++ s.data).reverse) := rfl
  rw [h4]
  have h5 : (B.data ++ s.data).reverse = c :: (Y.reverse ++ B.data.reverse) := by
    rw [hY]
    simp [List.reverse_append]
  rw [h5, List.dropWhile_cons, if_neg (by rw [hc]; decide), ← h5,
    List.reverse_reverse]
  rw [← String.data_append]

/-- Shared closed form of the reason string built by `_calculate_score`:
prefix, then the four components in fixed order, comma-joined with no
trailing comma. -/
theorem calculate_score_snd (ed : ℚ → ℚ) (st : RankerState) (now : ℚ) (t : Tweet) :
    (calculate_score ed st now t).2 =
      "排名因素: " ++ "engagement" ++ ": " ++ fmt2 (engagement_score st.weights t) ++ ", " ++
      "recency" ++ ": " ++ fmt2 (recency_score ed st.weights now t) ++ ", " ++
      "influence" ++ ": " ++ fmt2 (influence_score st.weights) ++ ", " ++
      "keywords" ++ ": " ++ fmt2 (keywords_score st.weights st.keywords t) := by
  unfold calculate_score
  dsimp only
  simp only [score_components, List.foldl]
  exact rstripCS_append_str _ _ (fmt2_data_last _)

/-- The output of `fmt2` contains no comma. -/
theorem fmt2_count_comma (q : ℚ) : ((fmt2 q).data).count ',' = 0 := by
  rw [List.count_eq_zero]
  intro hmem
  have h := fmt2_chars q ',' hmem
  rw [show isCommaSpace ',' = true from rfl] at h
  exact absurd h (by decide)

/-- The reason string contains exactly three commas, i.e. exactly four
comma-separated components. -/
theorem calculate_score_snd_comma_count (ed : ℚ → ℚ) (st : RankerState)
    (now : ℚ) (t : Tweet) :
    ((calculate_score ed st now t).2).data.count ',' = 3 := by
  rw [calculate_score_snd]
  simp only [String.data_append, List.count_append]
  rw [fmt2_count_comma, fmt2_count_comma, fmt2_count_comma, fmt2_count_comma]
  decide

/-- C1: the reason string produced by `_calculate_score` lists the four
component values in the fixed order engagement, recency, influence,
keywords, each rendered with two decimal places, in `factor: value` format,
comma-joined with no trailing comma; splitting on commas yields exactly 4
components (the string contains exactly 3 commas). -/
theorem calculate_score_reason_format (ed : ℚ → ℚ) (st : RankerState)
    (now : ℚ) (t : Tweet) :
    (calculate_score ed st now t).2 =
      "排名因素: " ++ "engagement" ++ ": " ++ fmt2 (engagement_score st.weights t) ++ ", " ++
      "recency" ++ ": " ++ fmt2 (recency_score ed st.weights now t) ++ ", " ++
      "influence" ++ ": " ++ fmt2 (influence_score st.weights) ++ ", " ++
      "keywords" ++ ": " ++ fmt2 (keywords_score st.weights st.keywords t) ∧
    ((calculate_score ed st now t).2).data.count ',' = 3 :=
  ⟨calculate_score_snd ed st now t, calculate_score_snd_comma_count ed st now t⟩

/-! Missing / null engagement fields -/

/-- C2: a missing or null engagement attribute is substituted by zero on the
way into the `Tweet` model (`getattr(tweet, f, 0) or 0`, and the dataclass
defaults), and the scoring function — a total function in this embedding —
then scores the item with a zero contribution from that field; scoring a
whole batch of such items yields one scored item per input item, so no
item-level irregularity of this shape aborts the batch. -/
theorem calculate_score_missing_engagement (ed : ℚ → ℚ) (st : RankerState)
    (now : ℚ) (raw : RawTweet) (u fn url : String) :
    (raw.likes = none →
      (convert_to_model raw u fn url).likes = 0 ∧
      (calculate_score ed st now (convert_to_model raw u fn url)).1 =
        wget st.weights "retweets" 0.4 * (convert_to_model raw u fn url).retweets +
        wget st.weights "replies" 0.1 * (convert_to_model raw u fn url).replies +
        wget st.weights "quotes" 0.2 * (convert_to_model raw u fn url).quotes +
        recency_score ed st.weights now (convert_to_model raw u fn url) +
        influence_score st.weights +
        keywords_score st.weights st.keywords (convert_to_model raw u fn url)) ∧
    (raw.retweets = none →
      (convert_to_model raw u fn url).retweets = 0 ∧
      (calculate_score ed st now (convert_to_model raw u fn url)).1 =
        wget st.weights "likes" 0.3 * (convert_to_model raw u fn url).likes +
        wget st.weights "replies" 0.1 * (convert_to_model raw u fn url).replies +
        wget st.weights "quotes" 0.2 * (convert_to_model raw u fn url).quotes +
        recency_score ed st.weights now (convert_to_model raw u fn url) +
        influence_score st.weights +
        keywords_score st.weights st.keywords (convert_to_model raw u fn url)) ∧
    (raw.replies = none →
      (convert_to_model raw u fn url).replies = 0 ∧
      (calculate_score ed st now (convert_to_model raw u fn url)).1 =
        wget st.weights "likes" 0.3 * (convert_to_model raw u fn url).likes +
        wget st.weights "retweets" 0.4 * (convert_to_model raw u fn url).retweets +
        wget st.weights "quotes" 0.2 * (convert_to_model raw u fn url).quotes +
        recency_score ed st.weights now (convert_to_model raw u fn url) +
        influence_score st.weights +
        keywords_score st.weights st.keywords (convert_to_model raw u fn url)) ∧
    (raw.quotes = none →
      (convert_to_model raw u fn url).quotes = 0 ∧
      (calculate_score ed st now (convert_to_model raw u fn url)).1 =
        wget st.weights "likes" 0.3 * (convert_to_model raw u fn url).likes +
        wget st.weights "retweets" 0.4 * (convert_to_model raw u fn url).retweets +
        wget st.weights "replies" 0.1 * (convert_to_model raw u fn url).replies +
        recency_score ed st.weights now (convert_to_model raw u fn url) +
        influence_score st.weights +
        keywords_score st.weights st.keywords (convert_to_model raw u fn url)) ∧
    (assignScore ed st now (convert_to_model raw u fn url)).rank_score =
      some ((calculate_score ed st now (convert_to_model raw u fn url)).1) ∧
    ∀ raws : List RawTweet,
      (List.map (assignScore ed st now)
        (List.map (fun r => convert_to_model r u fn url) raws)).length = raws.length := by
  refine ⟨fun h => ?_, fun h => ?_, fun h => ?_, fun h => ?_, rfl, fun raws => by simp⟩
  · have hz : (convert_to_model raw u fn url).likes = 0 := by
      show getattrOr0 raw.likes = 0
      rw [h]
      rfl
    refine ⟨hz, ?_⟩
    rw [calculate_score_fst, hz]
    ring
  · have hz : (convert_to_model raw u fn url).retweets = 0 := by
      show getattrOr0 raw.retweets = 0
      rw [h]
      rfl
    refine ⟨hz, ?_⟩
    rw [calculate_score_fst, hz]
    ring
  · have hz : (convert_to_model raw u fn url).replies = 0 := by
      show getattrOr0 raw.replies = 0
      rw [h]
      rfl
    refine ⟨hz, ?_⟩
    rw [calculate_score_fst, hz]
    ring
  · have hz : (convert_to_model raw u fn url).quotes = 0 := by
      show getattrOr0 raw.quotes = 0
      rw [h]
      rfl
    refine ⟨hz, ?_⟩
    rw [calculate_score_fst, hz]
    ring

/-- Witness for C2: a raw item with all four engagement attributes
missing/null converts to zero counts throughout. -/
theorem calculate_score_missing_engagement_witness :
    (convert_to_model { id := "r", text := "", created_on := none } "u" "f" "x").likes = 0 ∧
    (convert_to_model { id := "r", text := "", created_on := none } "u" "f" "x").retweets = 0 ∧
    (convert_to_model { id := "r", text := "", created_on := none } "u" "f" "x").replies = 0 ∧
    (convert_to_model { id := "r", text := "", created_on := none } "u" "f" "x").quotes = 0 :=
  ⟨((calculate_score_missing_engagement (fun _ => 1)
      { weights := [], keywords := none, auto_learning := false,
        learning_rate := 1/100, min_engagement := 10 } 0
      { id := "r", text := "", created_on := none } "u" "f" "x").1 rfl).1,
   ((calculate_score_missing_engagement (fun _ => 1)
      { weights := [], keywords := none, auto_learning := false,
        learning_rate := 1/100, min_engagement := 10 } 0
      { id := "r", text := "", created_on := none } "u" "f" "x").2.1 rfl).1,
   ((calculate_score_missing_engagement (fun _ => 1)
      { weights := [], keywords := none, auto_learning := false,
        learning_rate := 1/100, min_engagement := 10 } 0
      { id := "r", text := "", created_on := none } "u" "f" "x").2.2.1 rfl).1,
   ((calculate_score_missing_engagement (fun _ => 1)
      { weights := [], keywords := none, auto_learning := false,
        learning_rate := 1/100, min_engagement := 10 } 0
      { id := "r", text := "", created_on := none } "u" "f" "x").2.2.2.1 rfl).1⟩

end DailyAI
